import Mathlib

/-!
Shallow embedding of the TrueRate review pipeline: review extraction from
candidate DOM fragments, star-rating resolution, per-review analysis through
the scoring service, truth-gap aggregation, and the load-more session merge.
Definitions are translated from extension/content.js, the extension popup
script, and bookmarklet/truth-gap-bookmarklet.js. JavaScript numbers are
modelled as rationals, JavaScript falsiness of null, undefined, 0 and the
empty string is made explicit, and the DOM query layer is modelled by the
query results an element yields.
-/

/-- JavaScript Math.round: floor of x + 1/2, ties toward positive infinity,
computed as floor division of the numerator by the denominator. -/
def jsRound (x : ℚ) : ℤ := (x + 1/2).num.fdiv ((x + 1/2).den : ℤ)

/-- JavaScript expression o || d for a possibly absent number: null,
undefined and 0 are falsy. -/
def jsOrQ : Option ℚ → ℚ → ℚ
  | none, d => d
  | some x, d => if x = 0 then d else x

/-- JavaScript expression o || d for a possibly absent string: null,
undefined and the empty string are falsy. -/
def jsOrStr : Option String → String → String
  | none, d => d
  | some s, d => if s = "" then d else s

/-- Numeric value of a list of decimal digit characters. -/
def natOfDigits (l : List Char) : ℕ :=
  l.foldl (fun a c => 10 * a + (c.toNat - 48)) 0

/-- Value of a fractional digit block, the digits after the decimal point. -/
def fracVal (l : List Char) : ℚ := (natOfDigits l : ℚ) / 10 ^ l.length

/-- Value of the leftmost match of the regular expression for digits
optionally followed by a point and digits, as parseFloat reads the captured
text; none when the text holds no digit. -/
def firstNumber : List Char → Option ℚ
  | [] => none
  | c :: rest =>
    if c.isDigit then
      let ds := (c :: rest).takeWhile Char.isDigit
      let r2 := (c :: rest).dropWhile Char.isDigit
      match r2 with
      | '.' :: r3 =>
        let fs := r3.takeWhile Char.isDigit
        if fs.isEmpty then some (natOfDigits ds : ℚ)
        else some ((natOfDigits ds : ℚ) + fracVal fs)
      | _ => some (natOfDigits ds : ℚ)
    else firstNumber rest

/-- firstNumber over a string. -/
def firstNumberS (s : String) : Option ℚ := firstNumber s.data

/-- Leftmost match of the className regular expression a-star- followed by
one digit, returning that digit as parseInt does. Scanning advances one
character at a time, as a regular expression engine does. -/
def aStarDigit : List Char → Option ℕ
  | [] => none
  | c :: rest =>
    match c, rest with
    | 'a', '-' :: 's' :: 't' :: 'a' :: 'r' :: '-' :: d :: _ =>
      if d.isDigit then some (d.toNat - 48) else aStarDigit rest
    | _, _ => aStarDigit rest

/-- aStarDigit over a string. -/
def aStarDigitS (s : String) : Option ℕ := aStarDigit s.data

/-- Tail of the out-of-five pattern: optional whitespace, the separator
out of (case insensitive, with a single literal space) or a slash, optional
whitespace, then the digit 5. -/
def outOfFiveTail (l : List Char) : Bool :=
  let l1 := l.dropWhile Char.isWhitespace
  let sep : Option (List Char) :=
    match l1 with
    | '/' :: r => some r
    | a :: b :: c :: d :: e :: f :: r =>
      if a.toLower = 'o' ∧ b.toLower = 'u' ∧ c.toLower = 't' ∧ d = ' '
          ∧ e.toLower = 'o' ∧ f.toLower = 'f' then some r
      else none
    | _ => none
  match sep with
  | some r =>
    match r.dropWhile Char.isWhitespace with
    | '5' :: _ => true
    | _ => false
  | none => false

/-- Leftmost match of the pattern number out of 5 or number/5, case
insensitive, returning the parsed number. The number is matched greedily;
for this pattern greedy matching agrees with backtracking because the tail
can never begin with a digit or a point. -/
def outOfFive : List Char → Option ℚ
  | [] => none
  | c :: rest =>
    if c.isDigit then
      let ds := (c :: rest).takeWhile Char.isDigit
      let r2 := (c :: rest).dropWhile Char.isDigit
      let vr : ℚ × List Char :=
        match r2 with
        | '.' :: r3 =>
          let fs := r3.takeWhile Char.isDigit
          if fs.isEmpty then ((natOfDigits ds : ℚ), r2)
          else ((natOfDigits ds : ℚ) + fracVal fs, r3.dropWhile Char.isDigit)
        | _ => ((natOfDigits ds : ℚ), r2)
      if outOfFiveTail vr.2 then some vr.1 else outOfFive rest
    else outOfFive rest

/-- outOfFive over a string. -/
def outOfFiveS (s : String) : Option ℚ := outOfFive s.data

/-- Leading decimal literal with optional fraction, for parseFloat; a
leading point followed by digits is also accepted. -/
def parseFloatNum : List Char → Option ℚ
  | [] => none
  | c :: rest =>
    if c.isDigit then
      let ds := (c :: rest).takeWhile Char.isDigit
      let r2 := (c :: rest).dropWhile Char.isDigit
      match r2 with
      | '.' :: r3 =>
        let fs := r3.takeWhile Char.isDigit
        if fs.isEmpty then some (natOfDigits ds : ℚ)
        else some ((natOfDigits ds : ℚ) + fracVal fs)
      | _ => some (natOfDigits ds : ℚ)
    else if c = '.' then
      match rest with
      | c2 :: _ => if c2.isDigit then some (fracVal (rest.takeWhile Char.isDigit)) else none
      | [] => none
    else none

/-- JavaScript parseFloat restricted to plain decimal literals with optional
sign, leading whitespace and fraction; exponent and Infinity forms are not
modelled. none stands for NaN. -/
def jsParseFloat (s : String) : Option ℚ :=
  match s.data.dropWhile Char.isWhitespace with
  | '-' :: r => (parseFloatNum r).map (fun v => -v)
  | '+' :: r => parseFloatNum r
  | l => parseFloatNum l

/-- A rating element as seen through the queries extractStarRating makes on
it: its className, the textContent of its .a-icon-alt child when that child
exists, and its innerText. -/
structure StarEl where
  className : String
  altText : Option String
  innerText : Option String
deriving Repr, DecidableEq

/-- The review container element as seen through the queries
extractStarRating makes on it: the Amazon data-hook star element, the
generic star icon element, the data-rating attribute of the first
[data-rating] descendant, the aria-label of the first descendant whose
aria-label mentions star or rating, the serialized innerHTML, and the count
of descendants whose classes mark filled star icons. -/
structure StarDom where
  amazonStarEl : Option StarEl
  iconStarEl : Option StarEl
  dataRating : Option String
  ariaLabel : Option String
  innerHTML : String
  filledStarsCount : ℕ
deriving Repr, DecidableEq

/-- Body of resolver step 1 on the Amazon data-hook star element: className
pattern, then the .a-icon-alt text, then the innerText. -/
def starFromAmazonEl (el : StarEl) : Option ℚ :=
  match aStarDigitS el.className with
  | some d => some (d : ℚ)
  | none =>
    match firstNumberS (el.altText.getD "") with
    | some v => some ((jsRound v : ℤ) : ℚ)
    | none =>
      match firstNumberS (el.innerText.getD "") with
      | some v => some ((jsRound v : ℤ) : ℚ)
      | none => none

/-- Body of resolver step 2 on the generic star icon element: className
pattern, then the .a-icon-alt text. -/
def starFromIconEl (el : StarEl) : Option ℚ :=
  match aStarDigitS el.className with
  | some d => some (d : ℚ)
  | none =>
    match firstNumberS (el.altText.getD "") with
    | some v => some ((jsRound v : ℤ) : ℚ)
    | none => none

/-- extractStarRating from extension/content.js lines 109 to 159 and the
bookmarklet lines 374 to 440: the ordered fallback chain over the review
container, first non-null result wins, null when every step fails. -/
def extractStarRating (p : StarDom) : Option ℚ :=
  match p.amazonStarEl.bind starFromAmazonEl with
  | some v => some v
  | none =>
    match p.iconStarEl.bind starFromIconEl with
    | some v => some v
    | none =>
      match p.dataRating.bind (fun s => (jsParseFloat s).map (fun v => ((jsRound v : ℤ) : ℚ))) with
      | some v => some v
      | none =>
        match p.ariaLabel.bind (fun s => (firstNumberS s).map (fun v => ((jsRound v : ℤ) : ℚ))) with
        | some v => some v
        | none =>
          match (outOfFiveS p.innerHTML).map (fun v => ((jsRound v : ℤ) : ℚ)) with
          | some v => some v
          | none =>
            if 0 < p.filledStarsCount ∧ p.filledStarsCount ≤ 5 then
              some (p.filledStarsCount : ℚ)
            else none

/-- A raw extracted review candidate: text plus resolved stars. -/
structure Candidate where
  text : String
  stars : ℚ
deriving Repr, DecidableEq

/-- An element matched by one of the review selectors, as seen through the
queries extractReviews makes on it: its innerText and the review container
found by the closest-ancestor search, when one exists. -/
structure RawEl where
  innerText : Option String
  container : Option StarDom
deriving Repr, DecidableEq

/-- The star clamp applied when a candidate is pushed:
Math.min(5, Math.max(1, Math.round(stars))). -/
def clampStars (s : ℚ) : ℚ := ((min 5 (max 1 (jsRound s)) : ℤ) : ℚ)

/-- Body of the element loop of extractReviews: accept the element when its
trimmed text is non-empty and strictly between 20 and 5000 characters and
its text is not already present, resolving stars through the container with
default 3 and clamping into 1 to 5. -/
def extractStep (reviews : List Candidate) (el : RawEl) : List Candidate :=
  match el.innerText with
  | none => reviews
  | some raw =>
    if 20 < raw.trim.length ∧ raw.trim.length < 5000 then
      if reviews.any (fun r => r.text == raw.trim) then reviews
      else
        reviews ++ [⟨raw.trim,
          clampStars
            (match el.container with
             | some dom =>
               match extractStarRating dom with
               | some s => s
               | none => 3
             | none => 3)⟩]
    else reviews

/-- extractReviews from extension/content.js lines 162 to 233 and the
bookmarklet lines 443 to 486: fold the selector-matched elements in document
order, prepend the active text selection when its trimmed length exceeds 20
with a default 3 star value, and cap the output at 50 candidates. -/
def extractReviews (els : List RawEl) (selection : Option String) : List Candidate :=
  (match selection with
   | none => els.foldl extractStep []
   | some s =>
     if 20 < s.trim.length then ⟨s.trim, 3⟩ :: els.foldl extractStep []
     else els.foldl extractStep []).take 50

/-- Scoring service response body: adjusted_rating, credibility block and
sarcasm block, each possibly absent. -/
structure ApiCredibility where
  score : Option ℚ
  classification : Option String
deriving Repr, DecidableEq

/-- Sarcasm block of the scoring service response. -/
structure ApiSarcasm where
  is_sarcastic : Option Bool
deriving Repr, DecidableEq

/-- Scoring service response. -/
structure ApiResponse where
  adjusted_rating : Option ℚ
  credibility : Option ApiCredibility
  sarcasm : Option ApiSarcasm
deriving Repr, DecidableEq

/-- Outcome of one fetch to the scoring service: an ok response with a
body, a non-success HTTP response, or a thrown transport error. -/
inductive FetchResult where
  | ok (data : ApiResponse)
  | httpError
  | transportError
deriving Repr, DecidableEq

/-- Whether a fetch outcome is an ok response. -/
def FetchResult.isOk : FetchResult → Bool
  | .ok _ => true
  | _ => false

/-- An analyzed review as the popup and bookmarklet build it from the spread
of the candidate plus the mapped response fields. -/
structure Analyzed where
  text : String
  stars : ℚ
  weighted_rating : Option ℚ
  credibility_label : String
  credibility_score : ℚ
  is_sarcastic : Bool
deriving Repr, DecidableEq

/-- Build one analyzed review from a candidate and an ok response body,
with the JavaScript defaulting of absent or falsy fields. -/
def mkAnalyzed (r : Candidate) (d : ApiResponse) : Analyzed :=
  { text := r.text
    stars := r.stars
    weighted_rating := d.adjusted_rating
    credibility_label := jsOrStr (d.credibility.bind (fun c => c.classification)) "unknown"
    credibility_score := jsOrQ (d.credibility.bind (fun c => c.score)) 0
    is_sarcastic := (d.sarcasm.bind (fun c => c.is_sarcastic)).getD false }

/-- The candidate underlying an analyzed review. -/
def toCand (a : Analyzed) : Candidate := ⟨a.text, a.stars⟩

/-- analyzeReviews from the popup script and the bookmarklet lines 489 to
520: submit at most the first 20 candidates, one fetch each in order; the
fetch outcome of call number i on candidate r is svc i r; an ok response is
pushed, a non-success response or thrown error is skipped. -/
def analyzeReviews (svc : ℕ → Candidate → FetchResult) (reviews : List Candidate) : List Analyzed :=
  (reviews.take 20).enum.filterMap fun p =>
    match svc p.1 p.2 with
    | .ok d => some (mkAnalyzed p.2 d)
    | _ => none

/-- Result record of calculateTruthGap. -/
structure GapResult where
  gap : ℚ
  avgDisplayed : ℚ
  avgTrue : ℚ
deriving Repr, DecidableEq

/-- Sum of the stars fields, as the reduce over results computes it. -/
def sumStars (results : List Analyzed) : ℚ := (results.map (fun r => r.stars)).sum

/-- Sum of weighted_rating || stars, as the reduce over results computes
it. -/
def sumAdjusted (results : List Analyzed) : ℚ :=
  (results.map (fun r => jsOrQ r.weighted_rating r.stars)).sum

/-- calculateTruthGap from the popup script: an empty input returns the
zero record; otherwise avgDisplayed is displayedRating || mean stars,
avgTrue is the mean of weighted_rating || stars, and gap is their
difference. The bookmarklet version is this function with displayedRating
fixed to null. -/
def calculateTruthGap (results : List Analyzed) (displayedRating : Option ℚ) : GapResult :=
  if results.length = 0 then ⟨0, 0, 0⟩
  else
    let avgDisplayed := jsOrQ displayedRating (sumStars results / results.length)
    let avgTrue := sumAdjusted results / results.length
    ⟨avgDisplayed - avgTrue, avgDisplayed, avgTrue⟩

/-- Page context as detectPageType builds it. -/
structure PageInfo where
  site : String
  type : String
  displayedRating : Option ℚ
  hasMorePages : Bool
  totalReviews : Option ℚ
  reviewsUrl : Option String
deriving Repr, DecidableEq

/-- The popup renderResults expression pageInfo?.displayedRating || null:
an absent page context, an absent rating, or a zero rating all give null. -/
def displayedOverride (pi : Option PageInfo) : Option ℚ :=
  match pi with
  | none => none
  | some p =>
    match p.displayedRating with
    | none => none
    | some x => if x = 0 then none else some x

/-- Credibility label counts, as the filters in renderResults compute
them. -/
structure CredCounts where
  human : ℕ
  bot : ℕ
  lowEffort : ℕ
deriving Repr, DecidableEq

/-- The three label filters of renderResults. -/
def credCounts (results : List Analyzed) : CredCounts :=
  ⟨(results.filter (fun r => r.credibility_label == "human")).length,
   (results.filter (fun r => r.credibility_label == "bot")).length,
   (results.filter (fun r => r.credibility_label == "low_effort")).length⟩

/-- The aggregate report assembled on render: the truth gap record computed
over the displayed-rating override, the label counts, the total, and the
first five reviews as samples. -/
structure AggregateReport where
  gap : ℚ
  avgDisplayed : ℚ
  avgTrue : ℚ
  counts : CredCounts
  total : ℕ
  sampleReviews : List Analyzed
deriving Repr, DecidableEq

/-- Aggregation as the popup renderResults performs it over the full
analyzed set and the page context. -/
def aggregateReport (results : List Analyzed) (pi : Option PageInfo) : AggregateReport :=
  let g := calculateTruthGap results (displayedOverride pi)
  ⟨g.gap, g.avgDisplayed, g.avgTrue, credCounts results, results.length, results.take 5⟩

/-- Bookmarklet session variables touched by handleLoadMore. -/
structure BState where
  currentResults : List Analyzed
  allExtractedReviews : List Candidate
  isLoadingMore : Bool
deriving Repr, DecidableEq

/-- The candidates a load-more pass submits to analysis: newly extracted
candidates whose text is not among the texts of currentResults, mirroring
the existingTexts set built in handleLoadMore. -/
def loadMoreSubmitted (st : BState) (newReviews : List Candidate) : List Candidate :=
  newReviews.filter fun r => !((st.currentResults.map (fun a => a.text)).contains r.text)

/-- handleLoadMore from the bookmarklet lines 653 to 705: return unchanged
under the reentrancy guard; otherwise filter the freshly extracted
candidates against the texts of currentResults, analyze the remainder,
append the successes to currentResults and the submitted candidates to
allExtractedReviews, and reset the in-progress flag. -/
def handleLoadMore (svc : ℕ → Candidate → FetchResult) (newReviews : List Candidate)
    (st : BState) : BState :=
  if st.isLoadingMore then st
  else
    let additional := loadMoreSubmitted st newReviews
    if 0 < additional.length then
      { currentResults := st.currentResults ++ analyzeReviews svc additional
        allExtractedReviews := st.allExtractedReviews ++ additional
        isLoadingMore := false }
    else
      { st with isLoadingMore := false }

/-- Status of one load-more invocation: waiting to run its guard, past the
guard and working, returned early under the guard, or finished (the finally
block ran, after success or failure). -/
inductive InvStatus where
  | pending
  | running
  | rejected
  | completed
deriving Repr, DecidableEq

/-- Whether an invocation is past the guard and still working. -/
def isRunning : InvStatus → Bool
  | .running => true
  | _ => false

/-- The event-loop view of the session: the isLoadingMore flag plus the
statuses of the load-more invocations so far. -/
structure Session where
  isLoadingMore : Bool
  invs : List InvStatus
deriving Repr, DecidableEq

/-- Event-loop steps of the load-more handler. A click appends a pending
invocation. Running a pending invocation is synchronous up to the first
await: with the flag set it returns at once as rejected, with the flag
clear it sets the flag and becomes running. A running invocation finishes
through its finally block, which clears the flag. -/
inductive LoadMoreStep : Session → Session → Prop where
  | arrive (f : Bool) (l : List InvStatus) :
      LoadMoreStep ⟨f, l⟩ ⟨f, l ++ [.pending]⟩
  | guardReject (l₁ l₂ : List InvStatus) :
      LoadMoreStep ⟨true, l₁ ++ .pending :: l₂⟩ ⟨true, l₁ ++ .rejected :: l₂⟩
  | guardPass (l₁ l₂ : List InvStatus) :
      LoadMoreStep ⟨false, l₁ ++ .pending :: l₂⟩ ⟨true, l₁ ++ .running :: l₂⟩
  | finish (f : Bool) (l₁ l₂ : List InvStatus) :
      LoadMoreStep ⟨f, l₁ ++ .running :: l₂⟩ ⟨false, l₁ ++ .completed :: l₂⟩

/-- Sessions reachable from the initial state: flag clear, no
invocations. -/
def SessionReachable (s : Session) : Prop :=
  Relation.ReflTransGen LoadMoreStep ⟨false, []⟩ s

/-- Number of invocations past the guard and still working. -/
def runningCount (s : Session) : ℕ := s.invs.countP isRunning

/-- Inductive invariant: the flag bounds the number of running
invocations. -/
def SessionInv (s : Session) : Prop :=
  runningCount s ≤ if s.isLoadingMore then 1 else 0

/-- Fixture candidates for the partial-failure scenario. -/
def exCand (i : ℕ) : Candidate := ⟨"review text number " ++ toString i, 5⟩

/-- Ten fixture candidates. -/
def exampleTen : List Candidate :=
  [exCand 0, exCand 1, exCand 2, exCand 3, exCand 4,
   exCand 5, exCand 6, exCand 7, exCand 8, exCand 9]

/-- A fixed ok response body. -/
def exResp : ApiResponse := ⟨some 4, some ⟨some (4/5), some "human"⟩, some ⟨some false⟩⟩

/-- A service run in which calls 1, 4 and 7 fail and the rest succeed. -/
def exampleSvc : ℕ → Candidate → FetchResult := fun i _ =>
  if i = 1 ∨ i = 4 ∨ i = 7 then .transportError else .ok exResp

/-- The aggregation fixture: stars 5, 5, 3, 1 and adjusted ratings 0.22,
4.84, 3.64, 1.32. -/
def gapFixture : List Analyzed :=
  [⟨"fixture review one", 5, some (11/50), "human", 1, false⟩,
   ⟨"fixture review two", 5, some (121/25), "human", 1, false⟩,
   ⟨"fixture review three", 3, some (91/25), "human", 1, false⟩,
   ⟨"fixture review four", 1, some (33/25), "human", 1, false⟩]

/-! Helper lemmas. -/

/-- Mapping an analyzed batch back to candidates keeps exactly the inputs
whose fetch succeeded, in order. -/
theorem map_toCand_filterMap (f : ℕ × Candidate → FetchResult) (l : List (ℕ × Candidate)) :
    (l.filterMap fun p =>
        match f p with
        | FetchResult.ok d => some (mkAnalyzed p.2 d)
        | _ => none).map toCand
      = (l.filter fun p => (f p).isOk).map Prod.snd := by
  induction l with
  | nil => rfl
  | cons a t ih =>
    rw [List.filterMap_cons, List.filter_cons]
    cases h : f a with
    | ok d => simpa [FetchResult.isOk, toCand, mkAnalyzed] using ih
    | httpError => simpa [FetchResult.isOk] using ih
    | transportError => simpa [FetchResult.isOk] using ih

/-- Evaluation of calculateTruthGap on a non-empty input. -/
theorem calculateTruthGap_ne_nil (results : List Analyzed) (d : Option ℚ)
    (h : results.length ≠ 0) :
    calculateTruthGap results d
      = ⟨jsOrQ d (sumStars results / results.length) - sumAdjusted results / results.length,
         jsOrQ d (sumStars results / results.length),
         sumAdjusted results / results.length⟩ := by
  unfold calculateTruthGap
  rw [if_neg h]

/-! Claim theorems. -/

/-- Claim C8: applied to an empty analyzed list, for any page context, the
aggregation returns the defined zero state: gap, displayed and true ratings
all 0, and all credibility counts 0. -/
theorem aggregate_empty_zero_state (pi : Option PageInfo) :
    aggregateReport [] pi = ⟨0, 0, 0, ⟨0, 0, 0⟩, 0, []⟩ := rfl

set_option maxRecDepth 40000 in
/-- Claim C1: the analyzed output corresponds exactly to the subsequence of
the first min(20, length) candidates whose scoring call succeeded, in their
original relative order; a failed call removes only that candidate. In
particular ten candidates with three failed calls yield exactly seven
outputs in the relative order of the non-failed originals. -/
theorem analyzeReviews_success_subsequence (svc : ℕ → Candidate → FetchResult)
    (reviews : List Candidate) :
    ((analyzeReviews svc reviews).map toCand
        = ((reviews.take 20).enum.filter fun p => (svc p.1 p.2).isOk).map Prod.snd)
    ∧ ((analyzeReviews svc reviews).map toCand).Sublist (reviews.take 20)
    ∧ (analyzeReviews svc reviews).length
        = (reviews.take 20).enum.countP (fun p => (svc p.1 p.2).isOk)
    ∧ (analyzeReviews exampleSvc exampleTen).length = 7
    ∧ (analyzeReviews exampleSvc exampleTen).map toCand
        = [exCand 0, exCand 2, exCand 3, exCand 5, exCand 6, exCand 8, exCand 9] := by
  have key : (analyzeReviews svc reviews).map toCand
      = ((reviews.take 20).enum.filter fun p => (svc p.1 p.2).isOk).map Prod.snd := by
    unfold analyzeReviews
    exact map_toCand_filterMap (fun p => svc p.1 p.2) _
  refine ⟨key, ?_, ?_, ?_, ?_⟩
  · rw [key]
    have hs : (((reviews.take 20).enum.filter fun p => (svc p.1 p.2).isOk).map Prod.snd).Sublist
        ((reviews.take 20).enum.map Prod.snd) :=
      (List.filter_sublist _).map _
    rwa [List.enum_map_snd] at hs
  · have hl := congrArg List.length key
    rw [List.length_map, List.length_map] at hl
    rw [List.countP_eq_length_filter]
    exact hl
  · with_unfolding_all rfl
  · with_unfolding_all rfl

set_option maxRecDepth 8000 in
/-- Claim C3 counterexample: a page context whose displayedRating is present
and non-null but equal to 0 is not used as the override; the aggregate
displayed rating falls back to the mean of stars, here 4. -/
theorem displayed_zero_falls_back_to_mean :
    (PageInfo.mk "amazon" "reviews" (some 0) false none none).displayedRating = some 0
    ∧ (aggregateReport [⟨"a genuinely detailed review", 4, some 4, "human", 1, false⟩]
        (some (PageInfo.mk "amazon" "reviews" (some 0) false none none))).avgDisplayed = 4
    ∧ ¬ (aggregateReport [⟨"a genuinely detailed review", 4, some 4, "human", 1, false⟩]
        (some (PageInfo.mk "amazon" "reviews" (some 0) false none none))).avgDisplayed = 0 := by
  with_unfolding_all decide

/-- Claim C3 (amended): for a non-empty analyzed list, the aggregate
displayed rating equals the page context displayedRating whenever that
field is present, non-null and non-zero; when the field is absent, null or
zero it equals the unweighted mean of the analyzed stars, because the
JavaScript or-expression treats 0 like null. -/
theorem aggregate_displayedRating_override (results : List Analyzed) (pi : PageInfo) (x : ℚ)
    (h : results ≠ []) (hx : x ≠ 0) :
    (aggregateReport results (some { pi with displayedRating := some x })).avgDisplayed = x
    ∧ (aggregateReport results (some { pi with displayedRating := some 0 })).avgDisplayed
        = sumStars results / results.length
    ∧ (aggregateReport results (some { pi with displayedRating := none })).avgDisplayed
        = sumStars results / results.length
    ∧ (aggregateReport results none).avgDisplayed = sumStars results / results.length := by
  have hlen : results.length ≠ 0 := by
    simpa [List.length_eq_zero] using h
  refine ⟨?_, ?_, ?_, ?_⟩ <;>
    simp [aggregateReport, displayedOverride, hx, calculateTruthGap_ne_nil _ _ hlen, jsOrQ]

/-- Witness for claim C3, at one review with stars 4 and an override of
4.5. -/
theorem aggregate_displayedRating_override_witness :
    (aggregateReport [⟨"witness review body", 4, some 4, "human", 1, false⟩]
        (some { site := "amazon", type := "reviews", displayedRating := some (9/2),
                hasMorePages := false, totalReviews := none, reviewsUrl := none
                : PageInfo })).avgDisplayed = 9/2
    ∧ (aggregateReport [⟨"witness review body", 4, some 4, "human", 1, false⟩]
        (some { site := "amazon", type := "reviews", displayedRating := some 0,
                hasMorePages := false, totalReviews := none, reviewsUrl := none
                : PageInfo })).avgDisplayed
        = sumStars [⟨"witness review body", 4, some 4, "human", 1, false⟩]
            / ([⟨"witness review body", 4, some 4, "human", 1, false⟩] : List Analyzed).length
    ∧ (aggregateReport [⟨"witness review body", 4, some 4, "human", 1, false⟩]
        (some { site := "amazon", type := "reviews", displayedRating := none,
                hasMorePages := false, totalReviews := none, reviewsUrl := none
                : PageInfo })).avgDisplayed
        = sumStars [⟨"witness review body", 4, some 4, "human", 1, false⟩]
            / ([⟨"witness review body", 4, some 4, "human", 1, false⟩] : List Analyzed).length
    ∧ (aggregateReport [⟨"witness review body", 4, some 4, "human", 1, false⟩]
        none).avgDisplayed
        = sumStars [⟨"witness review body", 4, some 4, "human", 1, false⟩]
            / ([⟨"witness review body", 4, some 4, "human", 1, false⟩] : List Analyzed).length :=
  aggregate_displayedRating_override [⟨"witness review body", 4, some 4, "human", 1, false⟩]
    ⟨"amazon", "reviews", none, false, none, none⟩ (9/2)
    (by simp) (by with_unfolding_all decide)

set_option maxRecDepth 40000 in
/-- Claim C4: the truth gap is the displayed rating minus the true rating,
where the true rating is the simple mean of the adjusted ratings when every
analyzed review carries a present non-zero adjusted rating; on the fixture
with stars 5, 5, 3, 1 and adjusted ratings 0.22, 4.84, 3.64, 1.32 with no
override, the result is displayed 3.5, true 2.505 and gap 0.995. -/
theorem truthGap_formula_and_fixture (results : List Analyzed) (h : results ≠ [])
    (hw : ∀ r ∈ results, r.weighted_rating ≠ none ∧ r.weighted_rating ≠ some 0) :
    (calculateTruthGap results none).gap
        = (calculateTruthGap results none).avgDisplayed - (calculateTruthGap results none).avgTrue
    ∧ (calculateTruthGap results none).avgTrue
        = (results.map fun r => r.weighted_rating.getD 0).sum / results.length
    ∧ calculateTruthGap gapFixture none = ⟨199/200, 7/2, 501/200⟩ := by
  have hlen : results.length ≠ 0 := by
    simpa [List.length_eq_zero] using h
  refine ⟨?_, ?_, ?_⟩
  · rw [calculateTruthGap_ne_nil _ _ hlen]
  · rw [calculateTruthGap_ne_nil _ _ hlen]
    have hmap : results.map (fun r => jsOrQ r.weighted_rating r.stars)
        = results.map (fun r => r.weighted_rating.getD 0) := by
      apply List.map_congr_left
      intro r hr
      obtain ⟨h1, h2⟩ := hw r hr
      cases hwr : r.weighted_rating with
      | none => exact absurd hwr h1
      | some w =>
        have hw0 : ¬ w = 0 := by
          intro e
          exact h2 (by rw [hwr, e])
        simp [jsOrQ, hw0]
    show sumAdjusted results / results.length = _
    unfold sumAdjusted
    rw [hmap]
  · with_unfolding_all rfl

set_option maxRecDepth 40000 in
/-- Witness for claim C4, at the fixture itself. -/
theorem truthGap_formula_and_fixture_witness :
    (calculateTruthGap gapFixture none).gap
        = (calculateTruthGap gapFixture none).avgDisplayed
            - (calculateTruthGap gapFixture none).avgTrue
    ∧ (calculateTruthGap gapFixture none).avgTrue
        = (gapFixture.map fun r => r.weighted_rating.getD 0).sum / gapFixture.length
    ∧ calculateTruthGap gapFixture none = ⟨199/200, 7/2, 501/200⟩ :=
  truthGap_formula_and_fixture gapFixture (by simp [gapFixture])
    (by with_unfolding_all decide)

set_option maxRecDepth 8000 in
/-- Claim C2 counterexample: a candidate whose analysis fails is submitted
again by the next load-more pass. The first pass submits the candidate, its
analysis fails so currentResults stays empty while allExtractedReviews
records it; the second pass submits the same candidate again because the
dedup set is built from currentResults only. -/
theorem failed_candidate_resubmitted :
    (⟨"a transient network failure review", 3⟩ : Candidate)
      ∈ loadMoreSubmitted ⟨[], [], false⟩ [⟨"a transient network failure review", 3⟩]
    ∧ (handleLoadMore (fun _ _ => FetchResult.transportError)
        [⟨"a transient network failure review", 3⟩] ⟨[], [], false⟩).currentResults = []
    ∧ (handleLoadMore (fun _ _ => FetchResult.transportError)
        [⟨"a transient network failure review", 3⟩] ⟨[], [], false⟩).allExtractedReviews
      = [⟨"a transient network failure review", 3⟩]
    ∧ (⟨"a transient network failure review", 3⟩ : Candidate)
      ∈ loadMoreSubmitted
          (handleLoadMore (fun _ _ => FetchResult.transportError)
            [⟨"a transient network failure review", 3⟩] ⟨[], [], false⟩)
          [⟨"a transient network failure review", 3⟩] := by
  with_unfolding_all decide

/-- Claim C2 (amended): the dedup set a load-more pass consults is exactly
the set of texts of the accumulated analyzed reviews, not of all extracted
candidates: a freshly extracted candidate is submitted precisely when its
text differs from every analyzed text, and after the merge the analyzed
successes are appended to currentResults while every submitted candidate,
failed or not, is appended to allExtractedReviews only. Consequently a
candidate whose analysis failed is submitted again when extracted again. -/
theorem loadMore_dedup_by_analyzed_only (svc : ℕ → Candidate → FetchResult)
    (newReviews : List Candidate) (st : BState) (r : Candidate)
    (h : st.isLoadingMore = false) :
    handleLoadMore svc newReviews st
      = ⟨st.currentResults ++ analyzeReviews svc (loadMoreSubmitted st newReviews),
         st.allExtractedReviews ++ loadMoreSubmitted st newReviews, false⟩
    ∧ (r ∈ loadMoreSubmitted st newReviews
        ↔ r ∈ newReviews ∧ r.text ∉ st.currentResults.map (fun a => a.text)) := by
  constructor
  · unfold handleLoadMore
    by_cases hl : 0 < (loadMoreSubmitted st newReviews).length
    · simp [h, hl]
    · have hnil : loadMoreSubmitted st newReviews = [] := by
        have h0 : (loadMoreSubmitted st newReviews).length = 0 := by omega
        exact List.length_eq_zero.mp h0
      obtain ⟨c1, c2, c3⟩ := st
      simp at h
      subst h
      simp [hl, hnil, analyzeReviews]
  · unfold loadMoreSubmitted
    rw [List.mem_filter]
    constructor
    · rintro ⟨hmem, hp⟩
      refine ⟨hmem, ?_⟩
      intro hin
      rw [Bool.not_eq_true', ← Bool.not_eq_true] at hp
      exact hp (List.elem_iff.mpr hin)
    · rintro ⟨hmem, hnin⟩
      refine ⟨hmem, ?_⟩
      rw [Bool.not_eq_true', ← Bool.not_eq_true]
      intro hc
      exact hnin (List.elem_iff.mp hc)

set_option maxRecDepth 8000 in
/-- Witness for claim C2, at an idle empty session and one fresh
candidate. -/
theorem loadMore_dedup_by_analyzed_only_witness :
    handleLoadMore (fun _ _ => FetchResult.httpError)
        [⟨"fresh review text for the merge", 3⟩] ⟨[], [], false⟩
      = ⟨([] : List Analyzed) ++ analyzeReviews (fun _ _ => FetchResult.httpError)
            (loadMoreSubmitted ⟨[], [], false⟩ [⟨"fresh review text for the merge", 3⟩]),
         ([] : List Candidate) ++ loadMoreSubmitted ⟨[], [], false⟩
            [⟨"fresh review text for the merge", 3⟩], false⟩
    ∧ ((⟨"fresh review text for the merge", 3⟩ : Candidate)
        ∈ loadMoreSubmitted ⟨[], [], false⟩ [⟨"fresh review text for the merge", 3⟩]
      ↔ (⟨"fresh review text for the merge", 3⟩ : Candidate)
          ∈ [(⟨"fresh review text for the merge", 3⟩ : Candidate)]
        ∧ "fresh review text for the merge"
            ∉ ([] : List Analyzed).map (fun a => a.text)) :=
  loadMore_dedup_by_analyzed_only (fun _ _ => FetchResult.httpError)
    [⟨"fresh review text for the merge", 3⟩] ⟨[], [], false⟩
    ⟨"fresh review text for the merge", 3⟩ rfl

/-- The clamp yields an integer between 1 and 5. -/
theorem clampStars_bounds (s : ℚ) :
    ∃ n : ℤ, clampStars s = (n : ℚ) ∧ 1 ≤ n ∧ n ≤ 5 :=
  ⟨min 5 (max 1 (jsRound s)), rfl, le_min (by norm_num) (le_max_left 1 _), min_le_left 5 _⟩

/-- One extraction step keeps every candidate star value an integer between
1 and 5. -/
theorem extractStep_stars_bounds (acc : List Candidate) (el : RawEl)
    (hacc : ∀ c ∈ acc, ∃ n : ℤ, c.stars = (n : ℚ) ∧ 1 ≤ n ∧ n ≤ 5) :
    ∀ c ∈ extractStep acc el, ∃ n : ℤ, c.stars = (n : ℚ) ∧ 1 ≤ n ∧ n ≤ 5 := by
  intro c hc
  unfold extractStep at hc
  split at hc
  · exact hacc c hc
  · split at hc
    · split at hc
      · exact hacc c hc
      · rcases List.mem_append.mp hc with hmem | hmem
        · exact hacc c hmem
        · rcases List.mem_singleton.mp hmem with rfl
          exact clampStars_bounds _
    · exact hacc c hc

/-- The extraction fold keeps every candidate star value an integer between
1 and 5. -/
theorem foldl_extractStep_stars (els : List RawEl) :
    ∀ acc : List Candidate, (∀ c ∈ acc, ∃ n : ℤ, c.stars = (n : ℚ) ∧ 1 ≤ n ∧ n ≤ 5) →
      ∀ c ∈ els.foldl extractStep acc, ∃ n : ℤ, c.stars = (n : ℚ) ∧ 1 ≤ n ∧ n ≤ 5 := by
  induction els with
  | nil => intro acc h; exact h
  | cons e t ih =>
    intro acc h
    exact ih _ (extractStep_stars_bounds acc e h)

/-- One extraction step keeps the candidate texts pairwise distinct. -/
theorem extractStep_nodup (acc : List Candidate) (el : RawEl)
    (h : (acc.map Candidate.text).Nodup) :
    ((extractStep acc el).map Candidate.text).Nodup := by
  unfold extractStep
  split
  · exact h
  · next raw _ =>
    split
    · split
      · exact h
      · next hany =>
        have hnin : raw.trim ∉ acc.map Candidate.text := by
          intro hm
          apply hany
          rw [List.any_eq_true]
          rcases List.mem_map.mp hm with ⟨r, hr, e⟩
          exact ⟨r, hr, by simp [e]⟩
        rw [List.map_append, List.nodup_append_comm]
        simp [List.nodup_cons, hnin, h]
    · exact h

/-- The extraction fold keeps the candidate texts pairwise distinct. -/
theorem foldl_extractStep_nodup (els : List RawEl) :
    ∀ acc : List Candidate, (acc.map Candidate.text).Nodup →
      ((els.foldl extractStep acc).map Candidate.text).Nodup := by
  induction els with
  | nil => intro acc h; exact h
  | cons e t ih =>
    intro acc h
    exact ih _ (extractStep_nodup acc e h)

/-- Claim C6 counterexample: a trimmed text of exactly 20 characters is
rejected, although the claim states the inclusive bound accepts it. -/
theorem length_twenty_rejected :
    ("aaaaaaaaaaaaaaaaaaaa" : String).trim.length = 20
    ∧ extractReviews [⟨some "aaaaaaaaaaaaaaaaaaaa", none⟩] none = [] := by
  with_unfolding_all decide

/-- Claim C6 (amended): a fresh element matched by a selector group is
accepted as a candidate exactly when its trimmed text length is strictly
between 20 and 5000, that is in 21 to 4999; texts of exactly 20 or exactly
5000 characters are rejected. -/
theorem acceptance_strict_bounds (el : RawEl) (raw : String) (h : el.innerText = some raw) :
    (extractReviews [el] none ≠ [] ↔ 20 < raw.trim.length ∧ raw.trim.length < 5000) := by
  by_cases hc : 20 < raw.trim.length ∧ raw.trim.length < 5000 <;>
    simp [extractReviews, extractStep, h, hc]

/-- Witness for claim C6, at a 24 character element text. -/
theorem acceptance_strict_bounds_witness :
    (extractReviews [⟨some "an extracted review body", none⟩] none ≠ []
      ↔ 20 < ("an extracted review body" : String).trim.length
        ∧ ("an extracted review body" : String).trim.length < 5000) :=
  acceptance_strict_bounds ⟨some "an extracted review body", none⟩ "an extracted review body" rfl

/-- Claim C7 counterexample: when the active selection equals the text of an
extracted review, the selection is prepended without a dedup check and the
returned list holds two candidates with identical text. -/
theorem selection_duplicate_text :
    ¬ ((extractReviews [⟨some "this is a review text", none⟩]
        (some "this is a review text")).map Candidate.text).Nodup := by
  with_unfolding_all decide

/-- Claim C7 (amended): within one extraction pass the selector-extracted
candidates are pairwise distinct by exact text, and the full returned list
has pairwise distinct texts whenever no selection candidate is prepended;
the prepended selection candidate is not checked against the extracted
texts and may duplicate one of them. -/
theorem extracted_texts_nodup (els : List RawEl) :
    ((els.foldl extractStep []).map Candidate.text).Nodup
    ∧ ((extractReviews els none).map Candidate.text).Nodup := by
  have base := foldl_extractStep_nodup els [] (by simp)
  refine ⟨base, ?_⟩
  show (((els.foldl extractStep []).take 50).map Candidate.text).Nodup
  rw [List.map_take]
  exact List.Nodup.sublist (List.take_sublist _ _) base

/-- Claim C10: every candidate returned by extraction carries a stars value
that is an integer between 1 and 5: the wrapper rounds and clamps whatever
the resolver produced, defaults to 3 when the resolver yields null or no
container is found, and the selection candidate carries 3. -/
theorem candidate_stars_clamped (els : List RawEl) (sel : Option String) (c : Candidate)
    (h : c ∈ extractReviews els sel) :
    ∃ n : ℤ, c.stars = (n : ℚ) ∧ 1 ≤ n ∧ n ≤ 5 := by
  unfold extractReviews at h
  have h' := List.mem_of_mem_take h
  split at h'
  · exact foldl_extractStep_stars els [] (by simp) c h'
  · split at h'
    · rcases List.mem_cons.mp h' with rfl | hmem
      · exact ⟨3, by norm_num, by norm_num, by norm_num⟩
      · exact foldl_extractStep_stars els [] (by simp) c hmem
    · exact foldl_extractStep_stars els [] (by simp) c h'

/-- Witness for claim C10, at one extracted element without a container. -/
theorem candidate_stars_clamped_witness :
    ∃ n : ℤ, (Candidate.mk "an extracted review body xyz" 3).stars = (n : ℚ)
      ∧ 1 ≤ n ∧ n ≤ 5 :=
  candidate_stars_clamped [⟨some "an extracted review body xyz", none⟩] none
    ⟨"an extracted review body xyz", 3⟩ (by with_unfolding_all decide)

/-- Every non-null value produced by resolver step 1 is an integer. -/
theorem starFromAmazonEl_int (el : StarEl) (v : ℚ) (h : starFromAmazonEl el = some v) :
    ∃ n : ℤ, v = (n : ℚ) := by
  unfold starFromAmazonEl at h
  split at h
  · next d _ =>
    injection h with h
    exact ⟨(d : ℤ), by rw [← h]; norm_cast⟩
  · split at h
    · next w _ =>
      injection h with h
      exact ⟨jsRound w, h.symm⟩
    · split at h
      · next w _ =>
        injection h with h
        exact ⟨jsRound w, h.symm⟩
      · exact absurd h (by simp)

/-- Every non-null value produced by resolver step 2 is an integer. -/
theorem starFromIconEl_int (el : StarEl) (v : ℚ) (h : starFromIconEl el = some v) :
    ∃ n : ℤ, v = (n : ℚ) := by
  unfold starFromIconEl at h
  split at h
  · next d _ =>
    injection h with h
    exact ⟨(d : ℤ), by rw [← h]; norm_cast⟩
  · split at h
    · next w _ =>
      injection h with h
      exact ⟨jsRound w, h.symm⟩
    · exact absurd h (by simp)

/-- Claim C5 (amended): the star resolver returns either null or an integer
value; every numeric step rounds to the nearest integer, but the resolver
itself performs no clamping into 1 to 5 — that clamp is applied by the
extraction wrapper — so the resolver can return integers outside that
range. -/
theorem resolver_integer_result (p : StarDom) (v : ℚ) (h : extractStarRating p = some v) :
    ∃ n : ℤ, v = (n : ℚ) := by
  unfold extractStarRating at h
  split at h
  · next w hw =>
    injection h with h
    subst h
    obtain ⟨el, -, hel⟩ := Option.bind_eq_some.mp hw
    exact starFromAmazonEl_int el _ hel
  · split at h
    · next w hw =>
      injection h with h
      subst h
      obtain ⟨el, -, hel⟩ := Option.bind_eq_some.mp hw
      exact starFromIconEl_int el _ hel
    · split at h
      · next w hw =>
        injection h with h
        subst h
        obtain ⟨s, -, hs⟩ := Option.bind_eq_some.mp hw
        obtain ⟨q, -, hq⟩ := Option.map_eq_some'.mp hs
        exact ⟨jsRound q, hq.symm⟩
      · split at h
        · next w hw =>
          injection h with h
          subst h
          obtain ⟨s, -, hs⟩ := Option.bind_eq_some.mp hw
          obtain ⟨q, -, hq⟩ := Option.map_eq_some'.mp hs
          exact ⟨jsRound q, hq.symm⟩
        · split at h
          · next w hw =>
            injection h with h
            subst h
            obtain ⟨q, -, hq⟩ := Option.map_eq_some'.mp hw
            exact ⟨jsRound q, hq.symm⟩
          · split at h
            · injection h with h
              exact ⟨(p.filledStarsCount : ℤ), by rw [← h]; norm_cast⟩
            · exact absurd h (by simp)

/-- Witness for claim C5, at a container whose only signal is four filled
star icons. -/
theorem resolver_integer_result_witness : ∃ n : ℤ, (4 : ℚ) = (n : ℚ) :=
  resolver_integer_result ⟨none, none, none, none, "", 4⟩ 4 (by with_unfolding_all decide)

/-- Claim C5 counterexample: a container whose data-rating attribute reads
10 makes the resolver return 10, outside 1 to 5, because the resolver does
not clamp; the clamp lives in the extraction wrapper. -/
theorem resolver_returns_out_of_range :
    extractStarRating ⟨none, none, some "10", none, "", 0⟩ = some 10
    ∧ (5 : ℚ) < 10 := by
  with_unfolding_all decide

/-- isRunning on each constructor. -/
theorem isRunning_pending : isRunning InvStatus.pending = false := rfl

/-- isRunning on the running constructor. -/
theorem isRunning_running : isRunning InvStatus.running = true := rfl

/-- isRunning on the rejected constructor. -/
theorem isRunning_rejected : isRunning InvStatus.rejected = false := rfl

/-- isRunning on the completed constructor. -/
theorem isRunning_completed : isRunning InvStatus.completed = false := rfl

/-- One event-loop step preserves the session invariant. -/
theorem loadMoreStep_inv {a b : Session} (st : LoadMoreStep a b) (ha : SessionInv a) :
    SessionInv b := by
  cases st with
  | arrive f l =>
    have ha' : l.countP isRunning ≤ if f then 1 else 0 := ha
    show (l ++ [InvStatus.pending]).countP isRunning ≤ if f then 1 else 0
    have e : (l ++ [InvStatus.pending]).countP isRunning = l.countP isRunning := by
      simp [List.countP_append, List.countP_cons, isRunning_pending]
    rw [e]
    exact ha'
  | guardReject l₁ l₂ =>
    have ha' : (l₁ ++ InvStatus.pending :: l₂).countP isRunning ≤ if true then 1 else 0 := ha
    show (l₁ ++ InvStatus.rejected :: l₂).countP isRunning ≤ if true then 1 else 0
    have e1 : (l₁ ++ InvStatus.rejected :: l₂).countP isRunning
        = l₁.countP isRunning + l₂.countP isRunning := by
      simp [List.countP_append, List.countP_cons, isRunning_rejected]
    have e2 : (l₁ ++ InvStatus.pending :: l₂).countP isRunning
        = l₁.countP isRunning + l₂.countP isRunning := by
      simp [List.countP_append, List.countP_cons, isRunning_pending]
    rw [e1]
    rw [e2] at ha'
    exact ha'
  | guardPass l₁ l₂ =>
    have ha' : (l₁ ++ InvStatus.pending :: l₂).countP isRunning ≤ if false then 1 else 0 := ha
    show (l₁ ++ InvStatus.running :: l₂).countP isRunning ≤ if true then 1 else 0
    have e2 : (l₁ ++ InvStatus.pending :: l₂).countP isRunning
        = l₁.countP isRunning + l₂.countP isRunning := by
      simp [List.countP_append, List.countP_cons, isRunning_pending]
    have e1 : (l₁ ++ InvStatus.running :: l₂).countP isRunning
        = l₁.countP isRunning + l₂.countP isRunning + 1 := by
      simp [List.countP_append, List.countP_cons, isRunning_running]
      omega
    rw [e2] at ha'
    rw [e1]
    simp at ha' ⊢
    exact ha'
  | finish f l₁ l₂ =>
    have ha' : (l₁ ++ InvStatus.running :: l₂).countP isRunning ≤ if f then 1 else 0 := ha
    show (l₁ ++ InvStatus.completed :: l₂).countP isRunning ≤ if false then 1 else 0
    have e1 : (l₁ ++ InvStatus.running :: l₂).countP isRunning
        = l₁.countP isRunning + l₂.countP isRunning + 1 := by
      simp [List.countP_append, List.countP_cons, isRunning_running]
      omega
    have e2 : (l₁ ++ InvStatus.completed :: l₂).countP isRunning
        = l₁.countP isRunning + l₂.countP isRunning := by
      simp [List.countP_append, List.countP_cons, isRunning_completed]
    rw [e1] at ha'
    rw [e2]
    cases f
    · simp at ha'
    · simp at ha' ⊢
      exact ha'

/-- Claim C9: in every reachable session state at most one load-more
invocation is past the guard and in flight; an invocation arriving while the
flag is set runs only the guardReject step, which returns it at once as
rejected, starting no extraction and surfacing no error. -/
theorem loadMore_mutual_exclusion (s : Session) (h : SessionReachable s) :
    runningCount s ≤ 1 := by
  have inv : SessionInv s := by
    unfold SessionReachable at h
    induction h with
    | refl => unfold SessionInv runningCount; simp
    | tail _ st ih => exact loadMoreStep_inv st ih
  unfold SessionInv at inv
  cases hf : s.isLoadingMore <;> rw [hf] at inv <;> simp at inv <;> omega

/-- Witness for claim C9, at the reachable state where one invocation runs
and a second was rejected by the guard. -/
theorem loadMore_mutual_exclusion_witness :
    runningCount ⟨true, [InvStatus.running, InvStatus.rejected]⟩ ≤ 1 :=
  loadMore_mutual_exclusion ⟨true, [InvStatus.running, InvStatus.rejected]⟩
    (Relation.ReflTransGen.tail
      (Relation.ReflTransGen.tail
        (Relation.ReflTransGen.tail
          (Relation.ReflTransGen.tail Relation.ReflTransGen.refl
            (LoadMoreStep.arrive false []))
          (LoadMoreStep.guardPass [] []))
        (LoadMoreStep.arrive true [InvStatus.running]))
      (LoadMoreStep.guardReject [InvStatus.running] []))
